import Mathlib

/-!
Shallow embedding of the frame-compositing and timing core of the
edu_video_pipeline repository (animation_generator/animation_engine.py,
animation_generator/transition_effects.py, animation_generator/animation_styles.py,
video_assembler/compositor.py), together with proofs of the specification's
claims about it.

Modelling conventions:
* Python floats are modelled exactly by rationals (ℚ).
* Python 3 `round` (round half to even) and `int(...)` on a float
  (truncation toward zero) are modelled explicitly below.
* PIL images are modelled by a width, a height, a mode (RGB or RGBA) and a
  total pixel function; channels are natural numbers.  For an RGB image the
  alpha field of its pixels is meaningless (PIL stores none).  The LANCZOS
  resampling filter is modelled by point sampling: every fact proved below
  uses only the output geometry of `resize` and the fact that resampling a
  channel that is constant everywhere yields that constant, both of which
  hold for the real filter as well.
* Frame files written to disk are modelled by the image values written, in
  order; a frame-path list is modelled by the corresponding image list.
* A `raise` caught by `try`/`except` is modelled with `Option`: `none` is an
  exception.  Exception sites of `_generate_frame` that depend on PIL
  internals (corrupt image data, a failed resize, a failed paste) are
  modelled by explicit fault flags injected at exactly the places where the
  source can raise.
-/

/-- Python 3 `round` on a rational: round half to even. -/
def pyRound (x : ℚ) : ℤ :=
  let f := ⌊x⌋
  if x - f < 1/2 then f
  else if (1 : ℚ)/2 < x - f then f + 1
  else if f % 2 = 0 then f else f + 1

/-- Python `int(...)` on a rational: truncation toward zero. -/
def pyInt (x : ℚ) : ℤ := if 0 ≤ x then ⌊x⌋ else -⌊-x⌋

/-- A pixel: red, green, blue and alpha channel values. -/
structure Pixel where
  r : ℕ
  g : ℕ
  b : ℕ
  a : ℕ
deriving DecidableEq, Repr

/-- The PIL image modes used by the engine. -/
inductive Mode where
  | rgb
  | rgba
deriving DecidableEq, Repr

def Mode.isRGBA : Mode → Bool
  | .rgb => false
  | .rgba => true

/-- A PIL image: dimensions, mode and a total pixel function. -/
structure Img where
  width : ℕ
  height : ℕ
  mode : Mode
  px : ℕ → ℕ → Pixel

/-- Pixel-identity of two images on their visible area. -/
abbrev Img.eqOn (a b : Img) : Prop :=
  a.width = b.width ∧ a.height = b.height ∧ a.mode = b.mode ∧
    ∀ x, x < a.width → ∀ y, y < a.height → a.px x y = b.px x y

/-- PIL `Image.new(mode, (w, h), color)`. -/
def Img.new (m : Mode) (w h : ℕ) (c : Pixel) : Img := ⟨w, h, m, fun _ _ => c⟩

/-- PIL `img.convert("RGBA")`: an RGB image becomes fully opaque. -/
def Img.convertRGBA (img : Img) : Img :=
  if img.mode = Mode.rgba then img
  else ⟨img.width, img.height, Mode.rgba, fun x y =>
    let p := img.px x y
    ⟨p.r, p.g, p.b, 255⟩⟩

/-- PIL `img.resize((nw, nh), resample)`.  Resampling is modelled by point
sampling (see the header comment). -/
def Img.resize (img : Img) (nw nh : ℕ) : Img :=
  ⟨nw, nh, img.mode, fun x y => img.px (x * img.width / nw) (y * img.height / nh)⟩

/-- PIL `dst.paste(src, (ox, oy))`, and `dst.paste(src, (ox, oy), mask)` when
`useMask` is true, where the mask is the alpha band of `src` (the only form
the engine uses).  With a mask, destination and source are blended by the
mask value. -/
def Img.paste (dst src : Img) (ox oy : ℤ) (useMask : Bool) : Img :=
  ⟨dst.width, dst.height, dst.mode, fun x y =>
    let sx : ℤ := (x : ℤ) - ox
    let sy : ℤ := (y : ℤ) - oy
    if 0 ≤ sx ∧ sx < (src.width : ℤ) ∧ 0 ≤ sy ∧ sy < (src.height : ℤ) then
      let s := src.px sx.toNat sy.toNat
      if useMask then
        let d := dst.px x y
        let m := s.a
        ⟨(d.r * (255 - m) + s.r * m) / 255, (d.g * (255 - m) + s.g * m) / 255,
         (d.b * (255 - m) + s.b * m) / 255, (d.a * (255 - m) + s.a * m) / 255⟩
      else s
    else dst.px x y⟩

/-- One channel of PIL `Image.blend(a, b, t)`: `a + (b - a) * t`. -/
def blendChannel (u v : ℕ) (t : ℚ) : ℕ := (pyRound ((u : ℚ) + ((v : ℚ) - u) * t)).toNat

/-- PIL `Image.blend(a, b, t)`, the linear cross-dissolve. -/
def Img.blend (a b : Img) (t : ℚ) : Img :=
  ⟨a.width, a.height, a.mode, fun x y =>
    let p := a.px x y
    let q := b.px x y
    ⟨blendChannel p.r q.r t, blendChannel p.g q.g t, blendChannel p.b q.b t,
     blendChannel p.a q.a t⟩⟩

/-- AnimationEngine._apply_alpha: clamp, convert to RGBA, set the whole alpha
band to the given value. -/
def apply_alpha (img : Img) (alpha : ℤ) : Img :=
  let a2 := (max 0 (min 255 alpha)).toNat
  let im := if img.mode = Mode.rgba then img else img.convertRGBA
  ⟨im.width, im.height, Mode.rgba, fun x y =>
    let p := im.px x y
    ⟨p.r, p.g, p.b, a2⟩⟩

/-- AnimationEngine._apply_zoom: resize to `round(size * factor)` (at least
1×1) and paste centred on a canvas of the original size; the canvas is
transparent white for RGBA input and opaque white otherwise. -/
def apply_zoom (img : Img) (zoom_factor : ℚ) : Img :=
  let w := img.width
  let h := img.height
  let nw := (max 1 (pyRound ((w : ℚ) * zoom_factor))).toNat
  let nh := (max 1 (pyRound ((h : ℚ) * zoom_factor))).toNat
  let resized := img.resize nw nh
  let bg : Pixel := if resized.mode = Mode.rgba then ⟨255, 255, 255, 0⟩ else ⟨255, 255, 255, 255⟩
  (Img.new resized.mode w h bg).paste resized (((w : ℤ) - nw).fdiv 2) (((h : ℤ) - nh).fdiv 2)
    resized.mode.isRGBA

/-- AnimationEngine._apply_offset: paste at the given offset on a canvas of
the original size. -/
def apply_offset (img : Img) (offset : ℤ × ℤ) : Img :=
  let bg : Pixel := if img.mode = Mode.rgba then ⟨255, 255, 255, 0⟩ else ⟨255, 255, 255, 255⟩
  (Img.new img.mode img.width img.height bg).paste img offset.1 offset.2 img.mode.isRGBA

/-- AnimationEngine._apply_animation_effects: time-windowed fade / zoom /
offset effects by complexity tier. -/
def apply_animation_effects (img : Img) (time_pos : ℚ) (complexity : String) : Img :=
  if complexity = "low" then
    if time_pos < 1/10 then apply_alpha img (pyInt (255 * (time_pos / (1/10)))) else img
  else if complexity = "medium" then
    if time_pos < 1/5 then
      let img1 := apply_alpha img (pyInt (255 * (time_pos / (1/5))))
      apply_zoom img1 (19/20 + (time_pos / (1/5)) * (1/20))
    else img
  else if complexity = "high" then
    if time_pos < 3/10 then
      let img1 := apply_alpha img (pyInt (255 * (time_pos / (3/10))))
      let img2 := apply_zoom img1 (9/10 + (time_pos / (3/10)) * (1/10))
      apply_offset img2
        (pyInt (10 * (1 - time_pos / (3/10))), pyInt (5 * (1 - time_pos / (3/10))))
    else img
  else img

/-- The uniform scale factor of AnimationEngine._resize_image_to_fit. -/
def fit_scale (sw sh tw th : ℕ) : ℚ := min ((tw : ℚ) / sw) ((th : ℚ) / sh)

/-- The scaled width chosen by AnimationEngine._resize_image_to_fit. -/
def fit_nw (sw sh tw th : ℕ) : ℕ := (max 1 (pyRound ((sw : ℚ) * fit_scale sw sh tw th))).toNat

/-- The scaled height chosen by AnimationEngine._resize_image_to_fit. -/
def fit_nh (sw sh tw th : ℕ) : ℕ := (max 1 (pyRound ((sh : ℚ) * fit_scale sw sh tw th))).toNat

/-- AnimationEngine._resize_image_to_fit: uniform scale to fit inside the
target, letterboxed centred on an opaque white RGB canvas of exactly the
target size.  Zero source or target dimensions raise (`none`). -/
def resize_image_to_fit (img : Img) (target : ℕ × ℕ) : Option Img :=
  let sw := img.width
  let sh := img.height
  let tw := target.1
  let th := target.2
  if sw = 0 ∨ sh = 0 ∨ tw = 0 ∨ th = 0 then none
  else
    let nw := fit_nw sw sh tw th
    let nh := fit_nh sw sh tw th
    let resized := if nw = sw ∧ nh = sh then img else img.resize nw nh
    let canvas := Img.new Mode.rgb tw th ⟨255, 255, 255, 255⟩
    some (canvas.paste resized (((tw : ℤ) - nw).fdiv 2) (((th : ℤ) - nh).fdiv 2)
      resized.mode.isRGBA)

/-- AnimationEngine._center_image. -/
def center_image (img_size target_size : ℕ × ℕ) : ℤ × ℤ :=
  (((target_size.1 : ℤ) - img_size.1).fdiv 2, ((target_size.2 : ℤ) - img_size.2).fdiv 2)

/-- A visual item (one slide or page record): its image file path, which may
be absent. -/
structure Visual where
  path : Option String

instance : Inhabited Visual := ⟨⟨none⟩⟩

/-- An audio segment record `{section_idx, path, duration}`. -/
structure AudioSeg where
  section_idx : ℕ
  path : String
  duration : ℚ

/-- Fault flags for the exception sites inside the `try` of
`_generate_frame`: failure while obtaining the base canvas, failure inside
effect application, failure while compositing.  `_generate_frame` catches
any of them. -/
structure FrameFaults where
  base_fail : Bool
  effects_fail : Bool
  composite_fail : Bool

/-- No injected faults. -/
def noFaults : FrameFaults := ⟨false, false, false⟩

/-- The white RGB frame `_generate_frame` starts from. -/
def white_frame (res : ℕ × ℕ) : Img := Img.new Mode.rgb res.1 res.2 ⟨255, 255, 255, 255⟩

/-- AnimationEngine._generate_frame.  The frame starts white; if there is
visual content, the base canvas (the pre-fitted one, or else letterboxed on
demand from disk) gets the time-based effects applied and is composited;
any exception inside the `try` is logged and leaves the frame white.
`disk` maps a file path to its decoded image (`none`: missing/corrupt). -/
def generate_frame (disk : String → Option Img) (res : ℕ × ℕ)
    (visual_content : List Visual) (time_pos : ℚ) (complexity : String)
    (fitted_base : Option Img) (faults : FrameFaults) : Img :=
  let white := white_frame res
  match visual_content.head? with
  | none => white
  | some visual =>
    let attempt : Option Img :=
      if faults.base_fail then none
      else
        match (match fitted_base with
               | some b => some b
               | none => (visual.path.bind disk).bind fun src => resize_image_to_fit src res) with
        | none => none
        | some base =>
          if faults.effects_fail then none
          else
            let img := apply_animation_effects base time_pos complexity
            if faults.composite_fail then none
            else if img.width = res.1 ∧ img.height = res.2 then
              if img.mode = Mode.rgba then some ((white_frame res).paste img 0 0 true)
              else some img
            else
              let pos := center_image (img.width, img.height) res
              some (white.paste img pos.1 pos.2 img.mode.isRGBA)
    match attempt with
    | some f => f
    | none => white

/-- The frame count of `_generate_section_frames`:
`max(1, int(round(duration * fps)))`. -/
def section_frame_count (duration : ℚ) (fps : ℕ) : ℕ :=
  (max 1 (pyRound (duration * fps))).toNat

/-- AnimationEngine._generate_section_frames: one frame per index below the
frame count, at normalized time `i / (N - 1)` (0.0 when N = 1). -/
def generate_section_frames (disk : String → Option Img) (res : ℕ × ℕ) (fps : ℕ)
    (visual_content : List Visual) (duration : ℚ) (complexity : String)
    (fitted_base : Option Img) (faults : FrameFaults) : List Img :=
  let frame_count := section_frame_count duration fps
  (List.range frame_count).map fun frame_idx : ℕ =>
    generate_frame disk res visual_content
      (if 1 < frame_count then (frame_idx : ℚ) / ((frame_count - 1 : ℕ) : ℚ) else 0)
      complexity fitted_base faults

/-- An animation segment record as built by `_create_section_animation`. -/
structure SectionAnim where
  section_idx : ℕ
  frame_count : ℕ
  frame_paths : List Img
  duration : ℚ
  fps : ℕ
  style : String

instance : Inhabited SectionAnim := ⟨⟨0, 0, [], 0, 0, ""⟩⟩

/-- AnimationEngine._create_section_animation: generate the frames and wrap
them in a record; `duration` is the matched audio segment's duration and
`frame_count` the length of the generated frame list. -/
def create_section_animation (disk : String → Option Img) (res : ℕ × ℕ) (fps : ℕ)
    (style complexity : String) (section_idx : ℕ) (visual_content : List Visual)
    (audio_segment : AudioSeg) (fitted_base : Option Img) : SectionAnim :=
  let frames := generate_section_frames disk res fps visual_content audio_segment.duration
    complexity fitted_base noFaults
  ⟨section_idx, frames.length, frames, audio_segment.duration, fps, style⟩

/-- TransitionEffects.fade_transition: `int(duration * fps)` cross-dissolve
frames between the last frame of the outgoing segment and the first frame of
the incoming one (a white canvas when a side has no frames); blend factor
`i / (N - 1)`, and 1.0 when N = 1. -/
def fade_transition (res : ℕ × ℕ) (from_segment to_segment : SectionAnim)
    (duration : ℚ) (fps : ℕ) : List Img :=
  let frame_count := (pyInt (duration * fps)).toNat
  let from_img := from_segment.frame_paths.getLast?.getD (white_frame res)
  let to_img := to_segment.frame_paths.head?.getD (white_frame res)
  (List.range frame_count).map fun frame_idx : ℕ =>
    from_img.blend to_img
      (if 1 < frame_count then (frame_idx : ℚ) / ((frame_count - 1 : ℕ) : ℚ) else 1)

/-- TransitionEffects.slide_transition: `int(duration * fps)` frames; the
outgoing frame is pasted at `x = int(-width * pos)` and the incoming frame
at `x = int(width * (1 - pos))` on a white canvas, `pos = i / (N - 1)`
(1.0 when N = 1). -/
def slide_transition (res : ℕ × ℕ) (from_segment to_segment : SectionAnim)
    (duration : ℚ) (fps : ℕ) : List Img :=
  let frame_count := (pyInt (duration * fps)).toNat
  let from_img := from_segment.frame_paths.getLast?.getD (white_frame res)
  let to_img := to_segment.frame_paths.head?.getD (white_frame res)
  let width := res.1
  let height := res.2
  (List.range frame_count).map fun frame_idx : ℕ =>
    let slide_pos : ℚ :=
      if 1 < frame_count then (frame_idx : ℚ) / ((frame_count - 1 : ℕ) : ℚ) else 1
    let frame := Img.new Mode.rgb width height ⟨255, 255, 255, 255⟩
    let from_x := pyInt (-(width : ℚ) * slide_pos)
    let to_x := pyInt ((width : ℚ) * (1 - slide_pos))
    (frame.paste from_img from_x 0 false).paste to_img to_x 0 false

/-- A transition record as built by `_create_transition_animation`. -/
structure TransitionAnim where
  from_section_idx : ℕ
  to_section_idx : ℕ
  frame_count : ℕ
  frame_paths : List Img
  duration : ℚ
  fps : ℕ
  transition_type : String

instance : Inhabited TransitionAnim := ⟨⟨0, 0, 0, [], 0, 0, ""⟩⟩

/-- The style parameters `create_animations` consumes: the preset fields it
reads plus the complexity override. -/
structure StyleParams where
  complexity : String
  transition_type : String
  transition_duration : ℚ

/-- AnimationEngine._create_transition_animation: duration from the style
preset, fade or slide frames by transition type (unknown types fall back to
fade), endpoints recorded from the two segments' `section_idx`. -/
def create_transition_animation (res : ℕ × ℕ) (fps : ℕ) (style_params : StyleParams)
    (from_segment to_segment : SectionAnim) : TransitionAnim :=
  let transition_duration := style_params.transition_duration
  let ttype := style_params.transition_type
  let frames :=
    if ttype = "fade" then fade_transition res from_segment to_segment transition_duration fps
    else if ttype = "slide" then slide_transition res from_segment to_segment transition_duration fps
    else fade_transition res from_segment to_segment transition_duration fps
  ⟨from_segment.section_idx, to_segment.section_idx, frames.length, frames,
    transition_duration, fps, ttype⟩

/-- The transition loop of `create_animations`: one transition between each
pair of adjacent surviving segments. -/
def transitions_between (res : ℕ × ℕ) (fps : ℕ) (style_params : StyleParams) :
    List SectionAnim → List TransitionAnim
  | a :: b :: rest =>
    create_transition_animation res fps style_params a b ::
      transitions_between res fps style_params (b :: rest)
  | _ => []

/-- The visuals dictionary: a "slides" list (PPT input) or a "pages" list
(PDF input). -/
structure Visuals where
  slides : Option (List Visual)
  pages : Option (List Visual)

/-- AnimationEngine._get_section_visuals: the slide/page at the section's
index, or an empty list when out of range or no visual content exists. -/
def get_section_visuals (visuals : Visuals) (section_idx : ℕ) : List Visual :=
  match visuals.slides with
  | some l => if section_idx < l.length then [l.getD section_idx default] else []
  | none =>
    match visuals.pages with
    | some l => if section_idx < l.length then [l.getD section_idx default] else []
    | none => []

/-- One content-structure section; frame generation consults none of its
fields. -/
structure DocSection where
  title : String

/-- The section loop of `create_animations`: sections without a matching
audio segment (matched by `section_idx` equality) are skipped with a
warning; otherwise the fitted base canvas is prepared once per section (a
preparation failure is caught and leaves it `none`) and the section
animation is built. -/
def animation_segments (disk : String → Option Img) (res : ℕ × ℕ) (fps : ℕ)
    (style : String) (style_params : StyleParams) (visuals : Visuals)
    (audio_sections : List AudioSeg) : ℕ → List DocSection → List SectionAnim
  | _, [] => []
  | section_idx, _ :: rest =>
    let tail := animation_segments disk res fps style style_params visuals audio_sections
      (section_idx + 1) rest
    match audio_sections.find? (fun seg => seg.section_idx == section_idx) with
    | none => tail
    | some audio_segment =>
      let visual_content := get_section_visuals visuals section_idx
      let fitted_base : Option Img :=
        match visual_content.head? with
        | none => none
        | some v => (v.path.bind disk).bind fun src => resize_image_to_fit src res
      create_section_animation disk res fps style style_params.complexity section_idx
        visual_content audio_segment fitted_base :: tail

/-- The animation data dictionary returned by `create_animations`. -/
structure AnimationData where
  sections : List SectionAnim
  transitions : List TransitionAnim
  style : String
  total_duration : ℚ
  section_count : ℕ

/-- AnimationEngine.create_animations: build the surviving section segments,
then one transition between each adjacent pair. -/
def create_animations (disk : String → Option Img) (res : ℕ × ℕ) (fps : ℕ)
    (style : String) (style_params : StyleParams) (visuals : Visuals)
    (content_sections : List DocSection) (audio_sections : List AudioSeg) : AnimationData :=
  let segs := animation_segments disk res fps style style_params visuals audio_sections
    0 content_sections
  let trans := transitions_between res fps style_params segs
  ⟨segs, trans, style, (segs.map SectionAnim.duration).sum, segs.length⟩

/-- The letterboxed canvas computed from scratch for a path and a target
size: decode from disk, then `_resize_image_to_fit`. -/
def fitted_pure (disk : String → Option Img) (path : String) (res : ℕ × ℕ) : Option Img :=
  (disk path).bind fun src => resize_image_to_fit src res

/-- The state of the engine's image caches.  Images live in an explicit
heap (PIL images are mutable objects); cache entries hold heap references,
and `.copy()` allocates a fresh reference, so that mutating a returned
image is modelled by overwriting its reference. -/
structure CacheState where
  heap : List Img
  loaded : List (String × ℕ)
  fitted : List ((String × ℕ × ℕ) × ℕ)

/-- Read a heap reference. -/
def heap_read (h : List Img) (r : ℕ) : Img :=
  h.getD r (Img.new Mode.rgb 0 0 ⟨255, 255, 255, 255⟩)

/-- AnimationEngine._load_image: decode with caching; the cached object
itself is returned, without a copy. -/
def load_image (disk : String → Option Img) (st : CacheState) (path : String) :
    Option (ℕ × CacheState) :=
  match st.loaded.lookup path with
  | some r => some (r, st)
  | none =>
    match disk path with
    | none => none
    | some img =>
      some (st.heap.length,
        ⟨st.heap ++ [img], (path, st.heap.length) :: st.loaded, st.fitted⟩)

/-- AnimationEngine._get_fitted_canvas: return a copy of the cached
letterboxed canvas for `(path, w, h)`, computing and caching the canvas
first on a miss. -/
def get_fitted_canvas (disk : String → Option Img) (st : CacheState) (path : String)
    (res : ℕ × ℕ) : Option (ℕ × CacheState) :=
  match st.fitted.lookup (path, res.1, res.2) with
  | some r =>
    some (st.heap.length, ⟨st.heap ++ [heap_read st.heap r], st.loaded, st.fitted⟩)
  | none =>
    match load_image disk st path with
    | none => none
    | some (rs, st1) =>
      match resize_image_to_fit (heap_read st1.heap rs) res with
      | none => none
      | some fitted =>
        some (st1.heap.length + 1,
          ⟨st1.heap ++ [fitted] ++ [fitted], st1.loaded,
            ((path, res.1, res.2), st1.heap.length) :: st1.fitted⟩)

/-- A segment composition as built by `_create_segment_composition`. -/
structure SegmentComp where
  section_idx : ℕ
  animation : SectionAnim
  audio : AudioSeg
  duration : ℚ
  frame_count : ℕ
  fps : ℕ

/-- VideoCompositor._create_segment_composition: the element duration is
`max(animation duration, audio duration)`; the frame count is carried from
the visual side. -/
def create_segment_composition (fps : ℕ) (animation : SectionAnim) (audio : AudioSeg)
    (section_idx : ℕ) : SegmentComp :=
  ⟨section_idx, animation, audio, max animation.duration audio.duration,
    animation.frame_count, fps⟩

/-- A transition composition as built by `_create_transition_composition`. -/
structure TransitionComp where
  transition_idx : ℕ
  from_section_idx : ℕ
  to_section_idx : ℕ
  animation : TransitionAnim
  audio : Option AudioSeg
  duration : ℚ
  frame_count : ℕ
  fps : ℕ

/-- VideoCompositor._create_transition_composition: the audio reference may
be null; with audio the duration is `max(animation duration, audio
duration)`, without it the animation duration. -/
def create_transition_composition (fps : ℕ) (animation : TransitionAnim)
    (audio : Option AudioSeg) (transition_idx : ℕ) : TransitionComp :=
  let duration :=
    match audio with
    | some a => max animation.duration a.duration
    | none => animation.duration
  ⟨transition_idx, animation.from_section_idx, animation.to_section_idx, animation, audio,
    duration, animation.frame_count, fps⟩

/-- A composition element: a segment or a transition. -/
inductive CompElem where
  | seg : SegmentComp → CompElem
  | trans : TransitionComp → CompElem

/-- The `duration` field of a composition element. -/
def CompElem.duration : CompElem → ℚ
  | .seg s => s.duration
  | .trans t => t.duration

/-- The `frame_count` field of a composition element. -/
def CompElem.frame_count : CompElem → ℕ
  | .seg s => s.frame_count
  | .trans t => t.frame_count

/-- The sort key order on segments used by `assemble_video_segments`. -/
def segLE (a b : SegmentComp) : Prop := a.section_idx ≤ b.section_idx

instance : DecidableRel segLE := fun a b => Nat.decLe a.section_idx b.section_idx

instance : IsTotal SegmentComp segLE := ⟨fun a b => Nat.le_total a.section_idx b.section_idx⟩

instance : IsTrans SegmentComp segLE := ⟨fun _ _ _ h1 h2 => Nat.le_trans h1 h2⟩

/-- The sort key order on transitions used by `assemble_video_segments`. -/
def transLE (a b : TransitionComp) : Prop := a.transition_idx ≤ b.transition_idx

instance : DecidableRel transLE := fun a b => Nat.decLe a.transition_idx b.transition_idx

instance : IsTotal TransitionComp transLE := ⟨fun a b => Nat.le_total a.transition_idx b.transition_idx⟩

instance : IsTrans TransitionComp transLE := ⟨fun _ _ _ h1 h2 => Nat.le_trans h1 h2⟩

/-- The interleaving loop of `assemble_video_segments`: transition `i` is
appended, then segment `i + 1` when it exists.  The first segment was
appended before the loop, so the second argument is the sorted segment list
without its head. -/
def interleave_loop : List TransitionComp → List SegmentComp → List CompElem
  | [], _ => []
  | t :: ts, [] => CompElem.trans t :: interleave_loop ts []
  | t :: ts, s :: ss => CompElem.trans t :: CompElem.seg s :: interleave_loop ts ss

/-- The final composition dictionary built by `assemble_video_segments`. -/
structure FinalComposition where
  elements : List CompElem
  segment_count : ℕ
  transition_count : ℕ
  total_duration : ℚ
  total_frame_count : ℕ
  fps : ℕ
  resolution : ℕ × ℕ

/-- VideoCompositor.assemble_video_segments: sort segments by
`section_idx` and transitions by `transition_idx` (Python's stable sort),
interleave them, and total up durations and frame counts. -/
def assemble_video_segments (fps : ℕ) (res : ℕ × ℕ) (segments : List SegmentComp)
    (transitions : List TransitionComp) : FinalComposition :=
  let segs := List.insertionSort segLE segments
  let trans := List.insertionSort transLE transitions
  let elements :=
    match segs with
    | [] => interleave_loop trans []
    | s :: ss => CompElem.seg s :: interleave_loop trans ss
  ⟨elements, segments.length, transitions.length,
    (elements.map CompElem.duration).sum, (elements.map CompElem.frame_count).sum, fps, res⟩

/-- The section loop of `sync_audio_with_visuals`: a section element is
matched to its audio strictly by `section_idx` equality; a section without
audio is skipped with a warning; the enumeration index becomes the
element's `section_idx`. -/
def segment_compositions (fps : ℕ) (audio_sections : List AudioSeg) :
    ℕ → List SectionAnim → List SegmentComp
  | _, [] => []
  | idx, anim :: rest =>
    let tail := segment_compositions fps audio_sections (idx + 1) rest
    match audio_sections.find? (fun a => a.section_idx == anim.section_idx) with
    | none => tail
    | some audio_section => create_segment_composition fps anim audio_section idx :: tail

/-- The transition loop of `sync_audio_with_visuals`: every transition
yields an element; its audio, matched by the transition's
`from_section_idx`, may be absent. -/
def transition_compositions (fps : ℕ) (audio_transitions : List AudioSeg) :
    ℕ → List TransitionAnim → List TransitionComp
  | _, [] => []
  | idx, anim :: rest =>
    create_transition_composition fps anim
      (audio_transitions.find? (fun a => a.section_idx == anim.from_section_idx)) idx ::
      transition_compositions fps audio_transitions (idx + 1) rest

/-- VideoCompositor.sync_audio_with_visuals: build segment and transition
compositions, then assemble them. -/
def sync_audio_with_visuals (fps : ℕ) (res : ℕ × ℕ) (animations : AnimationData)
    (audio_sections audio_transitions : List AudioSeg) : FinalComposition :=
  assemble_video_segments fps res
    (segment_compositions fps audio_sections 0 animations.sections)
    (transition_compositions fps audio_transitions 0 animations.transitions)

/-- The element order claim C9 asserts, written from the specification's
words: the first section, then strictly alternating transition/section
pairs. -/
def spec_alternation (segments : List SegmentComp) (transitions : List TransitionComp) :
    List CompElem :=
  match segments with
  | [] => []
  | s :: ss =>
    CompElem.seg s :: (transitions.zip ss).flatMap fun p => [CompElem.trans p.1, CompElem.seg p.2]

/-- An animation segment with no frames, used as a concrete transition
endpoint. -/
def empty_segment : SectionAnim := ⟨0, 0, [], 0, 30, "standard"⟩

/-- Concrete three-section input for C10: audio exists for sections 0 and 2
only. -/
def demo_sections : List DocSection := [⟨"s1"⟩, ⟨"s2"⟩, ⟨"s3"⟩]

/-- Audio segments for sections 0 and 2; section 1 has none. -/
def demo_audio : List AudioSeg := [⟨0, "a0", 0⟩, ⟨2, "a2", 0⟩]

/-- No visual content. -/
def demo_visuals : Visuals := ⟨none, none⟩

/-- A fade style with zero transition duration. -/
def demo_style : StyleParams := ⟨"medium", "fade", 0⟩

/-- An empty disk. -/
def demo_disk : String → Option Img := fun _ => none

/-- A concrete section animation matched by audio index 0. -/
def demo_section_anim : SectionAnim := ⟨0, 1, [], 1, 30, "standard"⟩

/-- A concrete transition animation whose `from_section_idx` (5) matches no
audio. -/
def demo_transition_anim : TransitionAnim := ⟨5, 6, 0, [], 1, 30, "fade"⟩

/-- Witness for C9 on two segments and one transition. -/
def demo_segment_comp_a : SegmentComp := ⟨0, demo_section_anim, ⟨0, "a", 1⟩, 1, 1, 30⟩

/-- A second concrete segment composition. -/
def demo_segment_comp_b : SegmentComp := ⟨1, demo_section_anim, ⟨1, "b", 2⟩, 2, 1, 30⟩

/-- A concrete transition composition. -/
def demo_transition_comp : TransitionComp := ⟨0, 0, 1, demo_transition_anim, none, 1, 1, 30⟩

/-- A 1×1 black base canvas. -/
def demo_base : Img := Img.new Mode.rgb 1 1 ⟨0, 0, 0, 255⟩

/-- A fault in effect application only. -/
def effects_fault : FrameFaults := ⟨false, true, false⟩

/-- The fade-in window length of each complexity tier. -/
def effect_threshold (complexity : String) : ℚ :=
  if complexity = "low" then 1/10 else if complexity = "medium" then 1/5 else 3/10

/-- A 4×2 source image with distinguishable pixels. -/
def demo_src : Img := ⟨4, 2, Mode.rgb, fun x y => ⟨x, y, 7, 255⟩⟩

/-- The cache invariant: every cached reference is a valid heap reference
whose content is what recomputing from disk would produce for its key. -/
def CacheInv (disk : String → Option Img) (st : CacheState) : Prop :=
  (∀ p r, st.loaded.lookup p = some r →
    r < st.heap.length ∧ disk p = some (heap_read st.heap r)) ∧
  (∀ k r, st.fitted.lookup k = some r →
    r < st.heap.length ∧ fitted_pure disk k.1 (k.2.1, k.2.2) = some (heap_read st.heap r))

/-- A one-file disk for the C6 witness. -/
def demo_cache_disk : String → Option Img :=
  fun p => if p = "a.png" then some demo_src else none

/-- The engine's initial cache state. -/
def empty_cache : CacheState := ⟨[], [], []⟩

/-- Python round of an integer value is that integer. -/
theorem pyRound_intCast (n : ℤ) : pyRound (n : ℚ) = n := by
  simp only [pyRound, Int.floor_intCast, sub_self]
  norm_num

/-- Python round of a natural value is that natural. -/
theorem pyRound_natCast (n : ℕ) : pyRound (n : ℚ) = n := by
  exact_mod_cast pyRound_intCast n

/-- Python int() of an integer value is that integer. -/
theorem pyInt_intCast (n : ℤ) : pyInt (n : ℚ) = n := by
  unfold pyInt
  by_cases h : (0 : ℚ) ≤ (n : ℚ)
  · rw [if_pos h, Int.floor_intCast]
  · rw [if_neg h, ← Int.cast_neg, Int.floor_intCast, neg_neg]

/-- C1.  For every section animated with narration duration d (any rational,
including zero or negative) and configured frame rate fps > 0, the frame
list generated by `_generate_section_frames` has length exactly
`max(1, round(d * fps))`, and the section animation record's `frame_count`
field equals that length. -/
theorem c1_section_frame_count (disk : String → Option Img) (res : ℕ × ℕ)
    (style complexity : String) (section_idx : ℕ) (visual_content : List Visual)
    (audio_segment : AudioSeg) (fitted_base : Option Img) (faults : FrameFaults)
    (fps : ℕ) (hfps : 0 < fps) :
    (generate_section_frames disk res fps visual_content audio_segment.duration complexity
        fitted_base faults).length
      = (max 1 (pyRound (audio_segment.duration * fps))).toNat ∧
    (create_section_animation disk res fps style complexity section_idx visual_content
        audio_segment fitted_base).frame_count
      = (generate_section_frames disk res fps visual_content audio_segment.duration complexity
          fitted_base noFaults).length := by
  constructor
  · simp only [generate_section_frames, section_frame_count, List.length_map, List.length_range]
  · rfl

/-- Witness for C1 at duration 2 s, 30 fps. -/
theorem c1_section_frame_count_witness :
    0 < 30 ∧
    ((generate_section_frames (fun _ => none) (1, 1) 30 [] (AudioSeg.mk 0 "a" 2).duration
          "medium" none noFaults).length
        = (max 1 (pyRound ((AudioSeg.mk 0 "a" 2).duration * 30))).toNat ∧
      (create_section_animation (fun _ => none) (1, 1) 30 "standard" "medium" 0 []
          (AudioSeg.mk 0 "a" 2) none).frame_count
        = (generate_section_frames (fun _ => none) (1, 1) 30 [] (AudioSeg.mk 0 "a" 2).duration
            "medium" none noFaults).length) :=
  ⟨by norm_num,
    c1_section_frame_count (fun _ => none) (1, 1) "standard" "medium" 0 []
      (AudioSeg.mk 0 "a" 2) none noFaults 30 (by norm_num)⟩

/-- C2, counterexample.  The claim says the transition frame count is
`round(d * fps)` with a minimum of 1 frame.  At d = 0 the code produces 0
frames (no minimum is enforced), and at d = 1/20, fps = 30 it produces
`int(1.5) = 1` frames while `round(1.5) = 2`. -/
theorem c2_transition_frame_count_counterexample :
    (fade_transition (1, 1) empty_segment empty_segment 0 30).length = 0 ∧
    (fade_transition (1, 1) empty_segment empty_segment (1/20) 30).length = 1 ∧
    (0 : ℕ) ≠ (max 1 (pyRound ((0 : ℚ) * 30))).toNat ∧
    (1 : ℕ) ≠ (max 1 (pyRound ((1/20 : ℚ) * 30))).toNat := by
  refine ⟨?_, ?_, ?_, ?_⟩
  · simp only [fade_transition, List.length_map, List.length_range]
    norm_num [pyInt]
  · simp only [fade_transition, List.length_map, List.length_range]
    norm_num [pyInt]
  · norm_num [pyRound]
  · norm_num [pyRound]
    decide

/-- C2, amended.  For every transition generated by `fade_transition` or
`slide_transition` with duration d ≥ 0 and fps > 0, the number of generated
transition frame paths equals `int(d * fps)` (truncation toward zero); it can
be 0 when `d * fps < 1` — no minimum of one frame is enforced. -/
theorem c2_transition_frame_count (res : ℕ × ℕ) (from_segment to_segment : SectionAnim)
    (d : ℚ) (fps : ℕ) (hd : 0 ≤ d) (hfps : 0 < fps) :
    (fade_transition res from_segment to_segment d fps).length = (pyInt (d * fps)).toNat ∧
    (slide_transition res from_segment to_segment d fps).length = (pyInt (d * fps)).toNat := by
  constructor
  · simp only [fade_transition, List.length_map, List.length_range]
  · simp only [slide_transition, List.length_map, List.length_range]

/-- Witness for C2 at d = 1 s, 30 fps. -/
theorem c2_transition_frame_count_witness :
    (0 : ℚ) ≤ 1 ∧ 0 < 30 ∧
    ((fade_transition (1, 1) empty_segment empty_segment 1 30).length
        = (pyInt ((1 : ℚ) * 30)).toNat ∧
      (slide_transition (1, 1) empty_segment empty_segment 1 30).length
        = (pyInt ((1 : ℚ) * 30)).toNat) :=
  ⟨by norm_num, by norm_num,
    c2_transition_frame_count (1, 1) empty_segment empty_segment 1 30 (by norm_num) (by norm_num)⟩

/-- C7.  Every composition element produced by the compositor reconciles its
duration as the maximum of the visual duration and the matched audio
duration (the visual duration for a transition with no audio); the result is
never less than either input. -/
theorem c7_duration_reconciliation (fps : ℕ) (animation : SectionAnim) (audio : AudioSeg)
    (section_idx : ℕ) (tanim : TransitionAnim) (taudio : Option AudioSeg)
    (transition_idx : ℕ) :
    ((create_segment_composition fps animation audio section_idx).duration
        = max animation.duration audio.duration ∧
      animation.duration ≤ (create_segment_composition fps animation audio section_idx).duration ∧
      audio.duration ≤ (create_segment_composition fps animation audio section_idx).duration) ∧
    ((create_transition_composition fps tanim taudio transition_idx).duration
        = (match taudio with
           | some a => max tanim.duration a.duration
           | none => tanim.duration) ∧
      tanim.duration ≤ (create_transition_composition fps tanim taudio transition_idx).duration ∧
      ∀ a, taudio = some a →
        a.duration ≤ (create_transition_composition fps tanim taudio transition_idx).duration) := by
  refine ⟨⟨rfl, le_max_left _ _, le_max_right _ _⟩, rfl, ?_, ?_⟩
  · cases taudio with
    | none => exact le_refl _
    | some a => exact le_max_left _ _
  · intro a ha
    cases taudio with
    | none => cases ha
    | some b =>
      cases ha
      exact le_max_right _ _

/-- Witness for C7 with a 5 s visual, 7 s audio segment and a 1 s transition
with 2 s audio. -/
theorem c7_duration_reconciliation_witness :
    ((create_segment_composition 30 (SectionAnim.mk 0 1 [] 5 30 "standard")
          (AudioSeg.mk 0 "a" 7) 0).duration
        = max (SectionAnim.mk 0 1 [] 5 30 "standard").duration (AudioSeg.mk 0 "a" 7).duration ∧
      (SectionAnim.mk 0 1 [] 5 30 "standard").duration
        ≤ (create_segment_composition 30 (SectionAnim.mk 0 1 [] 5 30 "standard")
            (AudioSeg.mk 0 "a" 7) 0).duration ∧
      (AudioSeg.mk 0 "a" 7).duration
        ≤ (create_segment_composition 30 (SectionAnim.mk 0 1 [] 5 30 "standard")
            (AudioSeg.mk 0 "a" 7) 0).duration) ∧
    ((create_transition_composition 30 (TransitionAnim.mk 0 1 0 [] 1 30 "fade")
          (some (AudioSeg.mk 0 "t" 2)) 0).duration
        = (match some (AudioSeg.mk 0 "t" 2) with
           | some a => max (TransitionAnim.mk 0 1 0 [] 1 30 "fade").duration a.duration
           | none => (TransitionAnim.mk 0 1 0 [] 1 30 "fade").duration) ∧
      (TransitionAnim.mk 0 1 0 [] 1 30 "fade").duration
        ≤ (create_transition_composition 30 (TransitionAnim.mk 0 1 0 [] 1 30 "fade")
            (some (AudioSeg.mk 0 "t" 2)) 0).duration ∧
      ∀ a, some (AudioSeg.mk 0 "t" 2) = some a →
        a.duration ≤ (create_transition_composition 30 (TransitionAnim.mk 0 1 0 [] 1 30 "fade")
            (some (AudioSeg.mk 0 "t" 2)) 0).duration) :=
  c7_duration_reconciliation 30 (SectionAnim.mk 0 1 [] 5 30 "standard") (AudioSeg.mk 0 "a" 7) 0
    (TransitionAnim.mk 0 1 0 [] 1 30 "fade") (some (AudioSeg.mk 0 "t" 2)) 0

/-- The transition loop yields one fewer element than the segment list. -/
theorem transitions_between_length (res : ℕ × ℕ) (fps : ℕ) (sp : StyleParams) :
    ∀ l : List SectionAnim, (transitions_between res fps sp l).length = l.length - 1
  | [] => rfl
  | [_] => rfl
  | _ :: b :: rest => by
    have ih := transitions_between_length res fps sp (b :: rest)
    simp only [transitions_between, List.length_cons] at ih ⊢
    omega

/-- The i-th transition bridges the i-th and (i+1)-th segments. -/
theorem transitions_between_getD (res : ℕ × ℕ) (fps : ℕ) (sp : StyleParams) :
    ∀ (l : List SectionAnim) (i : ℕ), i + 1 < l.length →
      (transitions_between res fps sp l).getD i default
        = create_transition_animation res fps sp (l.getD i default) (l.getD (i + 1) default)
  | [], i, h => by simp at h
  | [_], i, h => by
    simp only [List.length_cons, List.length_nil] at h
    omega
  | _ :: _ :: _, 0, _ => rfl
  | a :: b :: rest, i + 1, h => by
    have ih := transitions_between_getD res fps sp (b :: rest) i (by simpa using h)
    simpa [transitions_between] using ih

/-- C10.  `create_animations` produces exactly `max(0, S - 1)` transitions
for S surviving (audio-matched) section segments; the i-th transition's
endpoints are the `section_idx` of the i-th and (i+1)-th surviving segments;
and, because sections lacking audio are skipped before transitions are
built, a transition can bridge sections whose original indices are not
consecutive (demonstrated on a concrete input where sections 0 and 2 survive
and the single transition runs from index 0 to index 2). -/
theorem c10_transition_bridging (disk : String → Option Img) (res : ℕ × ℕ) (fps : ℕ)
    (style : String) (sp : StyleParams) (visuals : Visuals)
    (content_sections : List DocSection) (audio_sections : List AudioSeg) :
    ((create_animations disk res fps style sp visuals content_sections
          audio_sections).transitions.length
        = (create_animations disk res fps style sp visuals content_sections
            audio_sections).sections.length - 1) ∧
    (∀ i, i + 1 < (create_animations disk res fps style sp visuals content_sections
          audio_sections).sections.length →
      ((create_animations disk res fps style sp visuals content_sections
            audio_sections).transitions.getD i default).from_section_idx
          = ((create_animations disk res fps style sp visuals content_sections
              audio_sections).sections.getD i default).section_idx ∧
      ((create_animations disk res fps style sp visuals content_sections
            audio_sections).transitions.getD i default).to_section_idx
          = ((create_animations disk res fps style sp visuals content_sections
              audio_sections).sections.getD (i + 1) default).section_idx) ∧
    ((create_animations demo_disk (1, 1) 30 "standard" demo_style demo_visuals demo_sections
          demo_audio).transitions.length = 1 ∧
      ((create_animations demo_disk (1, 1) 30 "standard" demo_style demo_visuals demo_sections
            demo_audio).transitions.getD 0 default).from_section_idx = 0 ∧
      ((create_animations demo_disk (1, 1) 30 "standard" demo_style demo_visuals demo_sections
            demo_audio).transitions.getD 0 default).to_section_idx = 2 ∧
      (2 : ℕ) ≠ 0 + 1) := by
  refine ⟨?_, ?_, ?_, ?_, ?_, ?_⟩
  · exact transitions_between_length res fps sp
      (animation_segments disk res fps style sp visuals audio_sections 0 content_sections)
  · intro i h
    have hg := transitions_between_getD res fps sp
      (animation_segments disk res fps style sp visuals audio_sections 0 content_sections) i h
    constructor
    · show ((transitions_between res fps sp
          (animation_segments disk res fps style sp visuals audio_sections
            0 content_sections)).getD i default).from_section_idx = _
      rw [hg]
      rfl
    · show ((transitions_between res fps sp
          (animation_segments disk res fps style sp visuals audio_sections
            0 content_sections)).getD i default).to_section_idx = _
      rw [hg]
      rfl
  · rfl
  · rfl
  · rfl
  · decide

/-- Witness for C10: the general clauses instantiated on the concrete demo
input, at transition index 0. -/
theorem c10_transition_bridging_witness :
    (0 + 1 < (create_animations demo_disk (1, 1) 30 "standard" demo_style demo_visuals
        demo_sections demo_audio).sections.length) ∧
    (((create_animations demo_disk (1, 1) 30 "standard" demo_style demo_visuals demo_sections
          demo_audio).transitions.getD 0 default).from_section_idx
        = ((create_animations demo_disk (1, 1) 30 "standard" demo_style demo_visuals
            demo_sections demo_audio).sections.getD 0 default).section_idx ∧
      ((create_animations demo_disk (1, 1) 30 "standard" demo_style demo_visuals demo_sections
            demo_audio).transitions.getD 0 default).to_section_idx
        = ((create_animations demo_disk (1, 1) 30 "standard" demo_style demo_visuals
            demo_sections demo_audio).sections.getD (0 + 1) default).section_idx) :=
  ⟨by decide,
    (c10_transition_bridging demo_disk (1, 1) 30 "standard" demo_style demo_visuals
        demo_sections demo_audio).2.1 0 (by decide)⟩

/-- Exactly the audio-matched sections survive the compositor's section
loop. -/
theorem segment_compositions_length (fps : ℕ) (audio_sections : List AudioSeg) :
    ∀ (idx : ℕ) (l : List SectionAnim),
      (segment_compositions fps audio_sections idx l).length
        = (l.filter fun a =>
            (audio_sections.find? fun s => s.section_idx == a.section_idx).isSome).length
  | _, [] => rfl
  | idx, anim :: rest => by
    have ih := segment_compositions_length fps audio_sections (idx + 1) rest
    cases hf : audio_sections.find? fun s => s.section_idx == anim.section_idx with
    | none => simpa [segment_compositions, hf] using ih
    | some aud => simpa [segment_compositions, hf] using ih

/-- Every surviving segment element carries an audio segment drawn from the
audio list whose `section_idx` equals the animation's. -/
theorem segment_compositions_mem (fps : ℕ) (audio_sections : List AudioSeg) :
    ∀ (idx : ℕ) (l : List SectionAnim) (c : SegmentComp),
      c ∈ segment_compositions fps audio_sections idx l →
        c.audio ∈ audio_sections ∧ c.audio.section_idx = c.animation.section_idx
  | _, [], c, h => absurd h (by simp [segment_compositions])
  | idx, anim :: rest, c, h => by
    cases hf : audio_sections.find? fun s => s.section_idx == anim.section_idx with
    | none =>
      exact segment_compositions_mem fps audio_sections (idx + 1) rest c
        (by simpa [segment_compositions, hf] using h)
    | some aud =>
      rw [segment_compositions, hf] at h
      rcases List.mem_cons.mp h with hc | hmem
      · subst hc
        refine ⟨List.mem_of_find?_eq_some hf, ?_⟩
        have hp := List.find?_some hf
        simpa using hp
      · exact segment_compositions_mem fps audio_sections (idx + 1) rest c hmem

/-- Every transition yields exactly one composition element. -/
theorem transition_compositions_length (fps : ℕ) (audio_transitions : List AudioSeg) :
    ∀ (idx : ℕ) (l : List TransitionAnim),
      (transition_compositions fps audio_transitions idx l).length = l.length
  | _, [] => rfl
  | idx, t :: rest => by
    have ih := transition_compositions_length fps audio_transitions (idx + 1) rest
    simp [transition_compositions, ih]

/-- Every transition element's audio reference is exactly the lookup result
for its transition's `from_section_idx`. -/
theorem transition_compositions_mem (fps : ℕ) (audio_transitions : List AudioSeg) :
    ∀ (idx : ℕ) (l : List TransitionAnim) (c : TransitionComp),
      c ∈ transition_compositions fps audio_transitions idx l →
        c.audio = audio_transitions.find? fun a => a.section_idx == c.animation.from_section_idx
  | _, [], c, h => absurd h (by simp [transition_compositions])
  | idx, t :: rest, c, h => by
    rw [transition_compositions] at h
    rcases List.mem_cons.mp h with hc | hmem
    · subst hc
      rfl
    · exact transition_compositions_mem fps audio_transitions (idx + 1) rest c hmem

/-- C8.  Audio matching is strictly by `section_idx` equality, with an
asymmetric policy: a primary section with no matching audio is skipped and
contributes no element (the survivor count is the count of audio-matched
sections, and every survivor's audio comes from the audio list with equal
`section_idx`), while every transition produces an element even without
audio, whose audio reference is null exactly when no audio transition
matches its `from_section_idx`. -/
theorem c8_audio_matching_policy (fps : ℕ) (audio_sections audio_transitions : List AudioSeg)
    (anim_sections : List SectionAnim) (anim_transitions : List TransitionAnim)
    (idx0 jdx0 : ℕ) :
    ((segment_compositions fps audio_sections idx0 anim_sections).length
        = (anim_sections.filter fun a =>
            (audio_sections.find? fun s => s.section_idx == a.section_idx).isSome).length ∧
      ∀ c ∈ segment_compositions fps audio_sections idx0 anim_sections,
        c.audio ∈ audio_sections ∧ c.audio.section_idx = c.animation.section_idx) ∧
    ((transition_compositions fps audio_transitions jdx0 anim_transitions).length
        = anim_transitions.length ∧
      ∀ c ∈ transition_compositions fps audio_transitions jdx0 anim_transitions,
        (c.audio = none →
          ∀ a ∈ audio_transitions, a.section_idx ≠ c.animation.from_section_idx) ∧
        (∀ a, c.audio = some a →
          a ∈ audio_transitions ∧ a.section_idx = c.animation.from_section_idx)) := by
  refine ⟨⟨segment_compositions_length fps audio_sections idx0 anim_sections, ?_⟩,
    transition_compositions_length fps audio_transitions jdx0 anim_transitions, ?_⟩
  · intro c hc
    exact segment_compositions_mem fps audio_sections idx0 anim_sections c hc
  · intro c hc
    have hca := transition_compositions_mem fps audio_transitions jdx0 anim_transitions c hc
    constructor
    · intro hnone a ha heq
      rw [hca] at hnone
      have := List.find?_eq_none.mp hnone a ha
      simp [heq] at this
    · intro a hsome
      rw [hca] at hsome
      refine ⟨List.mem_of_find?_eq_some hsome, ?_⟩
      have hp := List.find?_some hsome
      simpa using hp

/-- Witness for C8: one matched section and one audio-less transition. -/
theorem c8_audio_matching_policy_witness :
    ((create_segment_composition 30 demo_section_anim (AudioSeg.mk 0 "a" 1) 0).audio
        ∈ [AudioSeg.mk 0 "a" 1] ∧
      (create_segment_composition 30 demo_section_anim (AudioSeg.mk 0 "a" 1) 0).audio.section_idx
        = (create_segment_composition 30 demo_section_anim
            (AudioSeg.mk 0 "a" 1) 0).animation.section_idx) ∧
    (((create_transition_composition 30 demo_transition_anim none 0).audio = none →
        ∀ a ∈ ([] : List AudioSeg),
          a.section_idx
            ≠ (create_transition_composition 30 demo_transition_anim
                none 0).animation.from_section_idx) ∧
      (∀ a, (create_transition_composition 30 demo_transition_anim none 0).audio = some a →
        a ∈ ([] : List AudioSeg) ∧
          a.section_idx
            = (create_transition_composition 30 demo_transition_anim
                none 0).animation.from_section_idx)) :=
  ⟨(c8_audio_matching_policy 30 [AudioSeg.mk 0 "a" 1] [] [demo_section_anim]
      [demo_transition_anim] 0 0).1.2
      (create_segment_composition 30 demo_section_anim (AudioSeg.mk 0 "a" 1) 0)
      (List.mem_singleton.mpr rfl),
    (c8_audio_matching_policy 30 [AudioSeg.mk 0 "a" 1] [] [demo_section_anim]
      [demo_transition_anim] 0 0).2.2
      (create_transition_composition 30 demo_transition_anim none 0)
      (List.mem_singleton.mpr rfl)⟩

/-- With equally long inputs, the interleave loop is the strict
transition/segment alternation. -/
theorem interleave_loop_eq_zip :
    ∀ (ts : List TransitionComp) (ss : List SegmentComp), ts.length = ss.length →
      interleave_loop ts ss
        = (ts.zip ss).flatMap fun p => [CompElem.trans p.1, CompElem.seg p.2]
  | [], ss, _ => by simp [interleave_loop]
  | t :: ts, [], h => by simp at h
  | t :: ts, s :: ss, h => by
    have ih := interleave_loop_eq_zip ts ss (by simpa using h)
    simp [interleave_loop, ih]

/-- C9, amended.  When the transition list has exactly one fewer element
than the segment list (the shape a full pipeline run produces),
`assemble_video_segments` returns the elements as the first section followed
by strictly alternating transition/section pairs, built from the segment
list sorted by `section_idx` and the transition list sorted by
`transition_idx`; `total_duration` is the sum of the elements' durations and
`total_frame_count` the sum of their frame counts. -/
theorem c9_assemble_ordering (fps : ℕ) (res : ℕ × ℕ) (segments : List SegmentComp)
    (transitions : List TransitionComp) (h : transitions.length + 1 = segments.length) :
    (assemble_video_segments fps res segments transitions).elements
        = spec_alternation (List.insertionSort segLE segments)
            (List.insertionSort transLE transitions) ∧
    List.Sorted segLE (List.insertionSort segLE segments) ∧
    (List.insertionSort segLE segments).Perm segments ∧
    List.Sorted transLE (List.insertionSort transLE transitions) ∧
    (List.insertionSort transLE transitions).Perm transitions ∧
    (assemble_video_segments fps res segments transitions).total_duration
      = ((assemble_video_segments fps res segments transitions).elements.map
          CompElem.duration).sum ∧
    (assemble_video_segments fps res segments transitions).total_frame_count
      = ((assemble_video_segments fps res segments transitions).elements.map
          CompElem.frame_count).sum := by
  refine ⟨?_, List.sorted_insertionSort segLE segments, List.perm_insertionSort segLE segments,
    List.sorted_insertionSort transLE transitions, List.perm_insertionSort transLE transitions,
    rfl, rfl⟩
  cases hseg : List.insertionSort segLE segments with
  | nil =>
    exfalso
    have := List.length_insertionSort segLE segments
    rw [hseg] at this
    simp at this
    omega
  | cons s ss =>
    have hlen : (List.insertionSort transLE transitions).length = ss.length := by
      have h1 := List.length_insertionSort segLE segments
      have h2 := List.length_insertionSort transLE transitions
      rw [hseg] at h1
      simp only [List.length_cons] at h1
      omega
    simp only [assemble_video_segments, hseg, spec_alternation]
    rw [interleave_loop_eq_zip _ _ hlen]

theorem c9_assemble_ordering_witness :
    ([demo_transition_comp].length + 1 = [demo_segment_comp_a, demo_segment_comp_b].length) ∧
    (assemble_video_segments 30 (1, 1) [demo_segment_comp_a, demo_segment_comp_b]
          [demo_transition_comp]).elements
      = spec_alternation
          (List.insertionSort segLE [demo_segment_comp_a, demo_segment_comp_b])
          (List.insertionSort transLE [demo_transition_comp]) :=
  ⟨by decide,
    (c9_assemble_ordering 30 (1, 1) [demo_segment_comp_a, demo_segment_comp_b]
      [demo_transition_comp] (by decide)).1⟩

/-- C9, counterexample.  With one segment and one transition — a reachable
input, because the compositor skips a section with no audio while keeping
every transition — the element list is [segment, transition], which is not
the claimed strict alternation (which would stop after the lone segment). -/
theorem c9_assemble_ordering_counterexample :
    (assemble_video_segments 30 (1, 1) [demo_segment_comp_a]
        [demo_transition_comp]).elements
      ≠ spec_alternation (List.insertionSort segLE [demo_segment_comp_a])
          (List.insertionSort transLE [demo_transition_comp]) := by
  intro h
  have h2 : (assemble_video_segments 30 (1, 1) [demo_segment_comp_a]
      [demo_transition_comp]).elements.length = 2 := rfl
  have h1 : (spec_alternation (List.insertionSort segLE [demo_segment_comp_a])
      (List.insertionSort transLE [demo_transition_comp])).length = 1 := rfl
  rw [h, h1] at h2
  exact absurd h2 (by decide)

/-- Python int() of zero. -/
theorem pyInt_zero : pyInt 0 = 0 := by
  simpa using pyInt_intCast 0

/-- Any exception inside the per-frame `try` leaves the written frame equal
to the initial white canvas. -/
theorem generate_frame_fault_white (disk : String → Option Img) (res : ℕ × ℕ)
    (visual_content : List Visual) (time_pos : ℚ) (complexity : String)
    (fitted_base : Option Img) (faults : FrameFaults)
    (hf : faults.base_fail = true ∨ faults.effects_fail = true ∨
      faults.composite_fail = true) :
    generate_frame disk res visual_content time_pos complexity fitted_base faults
      = white_frame res := by
  cases faults with
  | mk b e c =>
    cases hv : visual_content.head? with
    | none => simp [generate_frame, hv]
    | some v =>
      rcases hf with rfl | rfl | rfl
      · simp [generate_frame, hv]
      · cases b
        · cases fitted_base with
          | some bb => simp [generate_frame, hv]
          | none =>
            cases hpb : (v.path.bind disk).bind fun src => resize_image_to_fit src res with
            | none => simp [generate_frame, hv, hpb]
            | some bb => simp [generate_frame, hv, hpb]
        · simp [generate_frame, hv]
      · cases b
        · cases e
          · cases fitted_base with
            | some bb => simp [generate_frame, hv]
            | none =>
              cases hpb : (v.path.bind disk).bind fun src => resize_image_to_fit src res with
              | none => simp [generate_frame, hv, hpb]
              | some bb => simp [generate_frame, hv, hpb]
          · cases fitted_base with
            | some bb => simp [generate_frame, hv]
            | none =>
              cases hpb : (v.path.bind disk).bind fun src => resize_image_to_fit src res with
              | none => simp [generate_frame, hv, hpb]
              | some bb => simp [generate_frame, hv, hpb]
        · simp [generate_frame, hv]

/-- When no fitted base was supplied and the per-frame base preparation
fails, the frame degrades to the white canvas. -/
theorem generate_frame_base_none_white (disk : String → Option Img) (res : ℕ × ℕ)
    (visual_content : List Visual) (time_pos : ℚ) (complexity : String)
    (faults : FrameFaults)
    (hprep : ∀ v, visual_content.head? = some v →
      ((v.path.bind disk).bind fun src => resize_image_to_fit src res) = none) :
    generate_frame disk res visual_content time_pos complexity none faults
      = white_frame res := by
  cases hv : visual_content.head? with
  | none => simp [generate_frame, hv]
  | some v =>
    have h := hprep v hv
    cases hb : faults.base_fail
    · simp [generate_frame, hv, hb, h]
    · simp [generate_frame, hv, hb]

/-- C3, amended.  When per-frame processing of a frame raises an error,
`_generate_frame` logs the error and writes that frame as the blank white
canvas (its initial state — not the unmodified fitted base) rather than
aborting the whole section; and when the section's base image preparation
fails, the section still proceeds, with every frame a blank white canvas and
the full frame count. -/
theorem c3_frame_error_fallback :
    (∀ (disk : String → Option Img) (res : ℕ × ℕ) (visual_content : List Visual)
      (time_pos : ℚ) (complexity : String) (fitted_base : Option Img)
      (faults : FrameFaults),
      (faults.base_fail = true ∨ faults.effects_fail = true ∨
        faults.composite_fail = true) →
      generate_frame disk res visual_content time_pos complexity fitted_base faults
        = white_frame res) ∧
    (∀ (disk : String → Option Img) (res : ℕ × ℕ) (fps : ℕ)
      (style complexity : String) (section_idx : ℕ) (visual_content : List Visual)
      (audio_segment : AudioSeg),
      (∀ v, visual_content.head? = some v →
        ((v.path.bind disk).bind fun src => resize_image_to_fit src res) = none) →
      (∀ f ∈ (create_section_animation disk res fps style complexity section_idx
          visual_content audio_segment none).frame_paths, f = white_frame res) ∧
      (create_section_animation disk res fps style complexity section_idx visual_content
          audio_segment none).frame_count
        = section_frame_count audio_segment.duration fps) := by
  constructor
  · exact generate_frame_fault_white
  · intro disk res fps style complexity section_idx visual_content audio_segment hprep
    constructor
    · intro f hfmem
      rcases List.mem_map.mp hfmem with ⟨i, _, rfl⟩
      exact generate_frame_base_none_white disk res visual_content _ complexity noFaults hprep
    · simp only [create_section_animation, generate_section_frames, section_frame_count,
        List.length_map, List.length_range]

/-- C3, counterexample.  With a healthy (black) fitted base and an error
raised during effect application, the written frame is the blank white
canvas, not the unmodified base frame the claim promises. -/
theorem c3_frame_error_fallback_counterexample :
    generate_frame (fun _ => none) (1, 1) [⟨some "slide.png"⟩] 0 "medium" (some demo_base)
        effects_fault = white_frame (1, 1) ∧
    ¬ (generate_frame (fun _ => none) (1, 1) [⟨some "slide.png"⟩] 0 "medium" (some demo_base)
        effects_fault).eqOn demo_base := by
  constructor
  · rfl
  · decide

/-- Witness for C3: both clauses at a concrete failing input. -/
theorem c3_frame_error_fallback_witness :
    (generate_frame (fun _ => none) (1, 1) [⟨some "slide.png"⟩] 0 "medium" (some demo_base)
        effects_fault = white_frame (1, 1)) ∧
    ((∀ f ∈ (create_section_animation (fun _ => none) (1, 1) 30 "standard" "medium" 0
        [⟨some "slide.png"⟩] (AudioSeg.mk 0 "a" 0) none).frame_paths,
        f = white_frame (1, 1)) ∧
      (create_section_animation (fun _ => none) (1, 1) 30 "standard" "medium" 0
          [⟨some "slide.png"⟩] (AudioSeg.mk 0 "a" 0) none).frame_count
        = section_frame_count (AudioSeg.mk 0 "a" 0).duration 30) :=
  ⟨c3_frame_error_fallback.1 (fun _ => none) (1, 1) [⟨some "slide.png"⟩] 0 "medium"
      (some demo_base) effects_fault (Or.inr (Or.inl rfl)),
    c3_frame_error_fallback.2 (fun _ => none) (1, 1) 30 "standard" "medium" 0
      [⟨some "slide.png"⟩] (AudioSeg.mk 0 "a" 0)
      (fun v hv => by cases hv; rfl)⟩

/-- Conversion to RGBA preserves the width. -/
theorem convertRGBA_width (img : Img) : img.convertRGBA.width = img.width := by
  unfold Img.convertRGBA
  split <;> rfl

/-- Conversion to RGBA preserves the height. -/
theorem convertRGBA_height (img : Img) : img.convertRGBA.height = img.height := by
  unfold Img.convertRGBA
  split <;> rfl

/-- The alpha fade preserves the width. -/
theorem apply_alpha_width (img : Img) (alpha : ℤ) : (apply_alpha img alpha).width = img.width := by
  simp only [apply_alpha]
  split <;> simp [convertRGBA_width]

/-- The alpha fade preserves the height. -/
theorem apply_alpha_height (img : Img) (alpha : ℤ) :
    (apply_alpha img alpha).height = img.height := by
  simp only [apply_alpha]
  split <;> simp [convertRGBA_height]

/-- The alpha fade returns an RGBA image. -/
theorem apply_alpha_mode (img : Img) (alpha : ℤ) : (apply_alpha img alpha).mode = Mode.rgba :=
  rfl

/-- The alpha band after the fade is the clamped alpha value, at every
pixel. -/
theorem apply_alpha_a (img : Img) (alpha : ℤ) (x y : ℕ) :
    ((apply_alpha img alpha).px x y).a = (max 0 (min 255 alpha)).toNat :=
  rfl

/-- Point-sampled resampling preserves an everywhere-zero alpha band. -/
theorem resize_a_zero (img : Img) (h : ∀ x y, (img.px x y).a = 0) (nw nh x y : ℕ) :
    ((img.resize nw nh).px x y).a = 0 :=
  h _ _

/-- Pasting a fully transparent source onto a fully transparent destination
leaves every alpha value zero. -/
theorem paste_a_zero (dst src : Img) (ox oy : ℤ) (useMask : Bool)
    (hd : ∀ x y, (dst.px x y).a = 0) (hs : ∀ x y, (src.px x y).a = 0) (x y : ℕ) :
    ((dst.paste src ox oy useMask).px x y).a = 0 := by
  simp only [Img.paste]
  split
  · split
    · simp [hd, hs]
    · exact hs _ _
  · exact hd _ _

/-- The zoom effect preserves dimensions and mode. -/
theorem apply_zoom_width (img : Img) (zf : ℚ) : (apply_zoom img zf).width = img.width := rfl

/-- The zoom effect preserves the height. -/
theorem apply_zoom_height (img : Img) (zf : ℚ) : (apply_zoom img zf).height = img.height := rfl

/-- The zoom effect preserves the mode. -/
theorem apply_zoom_mode (img : Img) (zf : ℚ) : (apply_zoom img zf).mode = img.mode := rfl

/-- Zooming a fully transparent RGBA image yields a fully transparent
image. -/
theorem apply_zoom_a_zero (img : Img) (hmode : img.mode = Mode.rgba)
    (h : ∀ x y, (img.px x y).a = 0) (zf : ℚ) (x y : ℕ) :
    ((apply_zoom img zf).px x y).a = 0 := by
  simp only [apply_zoom, Img.resize, hmode, if_true]
  apply paste_a_zero
  · exact fun _ _ => rfl
  · exact fun a b => h _ _

/-- The offset effect preserves dimensions and mode. -/
theorem apply_offset_width (img : Img) (offset : ℤ × ℤ) :
    (apply_offset img offset).width = img.width := rfl

/-- The offset effect preserves the height. -/
theorem apply_offset_height (img : Img) (offset : ℤ × ℤ) :
    (apply_offset img offset).height = img.height := rfl

/-- The offset effect preserves the mode. -/
theorem apply_offset_mode (img : Img) (offset : ℤ × ℤ) :
    (apply_offset img offset).mode = img.mode := rfl

/-- Offsetting a fully transparent RGBA image yields a fully transparent
image. -/
theorem apply_offset_a_zero (img : Img) (hmode : img.mode = Mode.rgba)
    (h : ∀ x y, (img.px x y).a = 0) (offset : ℤ × ℤ) (x y : ℕ) :
    ((apply_offset img offset).px x y).a = 0 := by
  unfold apply_offset
  rw [hmode]
  exact paste_a_zero _ _ _ _ _ (fun _ _ => rfl) (fun a b => h _ _) x y

/-- The threshold of the low tier. -/
theorem effect_threshold_low : effect_threshold "low" = 1/10 := by
  rw [effect_threshold, if_pos rfl]

/-- The threshold of the medium tier. -/
theorem effect_threshold_medium : effect_threshold "medium" = 1/5 := by
  rw [effect_threshold, if_neg (by decide), if_pos rfl]

/-- The threshold of the high tier. -/
theorem effect_threshold_high : effect_threshold "high" = 3/10 := by
  rw [effect_threshold, if_neg (by decide), if_neg (by decide)]

/-- C4.  For every input frame and every complexity tier, the effect engine
at time position 0.0 produces a fully transparent image of unchanged size
(alpha 0 at every pixel, before compositing), and at every time position at
or after the tier's threshold (0.1 / 0.2 / 0.3) it returns the input frame
unchanged. -/
theorem c4_effect_boundary (img : Img) (complexity : String)
    (hc : complexity = "low" ∨ complexity = "medium" ∨ complexity = "high") :
    ((apply_animation_effects img 0 complexity).width = img.width ∧
      (apply_animation_effects img 0 complexity).height = img.height ∧
      (apply_animation_effects img 0 complexity).mode = Mode.rgba ∧
      ∀ x y, ((apply_animation_effects img 0 complexity).px x y).a = 0) ∧
    ∀ t : ℚ, effect_threshold complexity ≤ t →
      apply_animation_effects img t complexity = img := by
  rcases hc with rfl | rfl | rfl
  · have hae : apply_animation_effects img 0 "low" = apply_alpha img 0 := by
      rw [apply_animation_effects, if_pos rfl, if_pos (by norm_num : (0 : ℚ) < 1/10),
        show (255 * ((0 : ℚ) / (1/10))) = 0 by norm_num, pyInt_zero]
    refine ⟨⟨?_, ?_, ?_, ?_⟩, ?_⟩
    · rw [hae]; exact apply_alpha_width img 0
    · rw [hae]; exact apply_alpha_height img 0
    · rw [hae]; exact apply_alpha_mode img 0
    · intro x y
      rw [hae, apply_alpha_a]
      decide
    · intro t ht
      rw [effect_threshold_low] at ht
      rw [apply_animation_effects, if_pos rfl, if_neg (not_lt.mpr ht)]
  · have hae : apply_animation_effects img 0 "medium"
        = apply_zoom (apply_alpha img 0) (19/20 + ((0 : ℚ) / (1/5)) * (1/20)) := by
      rw [apply_animation_effects, if_neg (by decide), if_pos rfl,
        if_pos (by norm_num : (0 : ℚ) < 1/5),
        show (255 * ((0 : ℚ) / (1/5))) = 0 by norm_num, pyInt_zero]
    refine ⟨⟨?_, ?_, ?_, ?_⟩, ?_⟩
    · rw [hae]; exact apply_alpha_width img 0
    · rw [hae]; exact apply_alpha_height img 0
    · rw [hae]; exact apply_alpha_mode img 0
    · intro x y
      rw [hae]
      exact apply_zoom_a_zero _ (apply_alpha_mode img 0)
        (fun a b => by rw [apply_alpha_a]; decide) _ x y
    · intro t ht
      rw [effect_threshold_medium] at ht
      rw [apply_animation_effects, if_neg (by decide), if_pos rfl, if_neg (not_lt.mpr ht)]
  · have hae : apply_animation_effects img 0 "high"
        = apply_offset (apply_zoom (apply_alpha img 0) (9/10 + ((0 : ℚ) / (3/10)) * (1/10)))
            (pyInt (10 * (1 - (0 : ℚ) / (3/10))), pyInt (5 * (1 - (0 : ℚ) / (3/10)))) := by
      rw [apply_animation_effects, if_neg (by decide), if_neg (by decide), if_pos rfl,
        if_pos (by norm_num : (0 : ℚ) < 3/10),
        show (255 * ((0 : ℚ) / (3/10))) = 0 by norm_num, pyInt_zero]
    refine ⟨⟨?_, ?_, ?_, ?_⟩, ?_⟩
    · rw [hae]; exact apply_alpha_width img 0
    · rw [hae]; exact apply_alpha_height img 0
    · rw [hae]; exact apply_alpha_mode img 0
    · intro x y
      rw [hae]
      exact apply_offset_a_zero
        (apply_zoom (apply_alpha img 0) (9/10 + ((0 : ℚ) / (3/10)) * (1/10)))
        ((apply_zoom_mode _ _).trans (apply_alpha_mode img 0))
        (fun a b => apply_zoom_a_zero (apply_alpha img 0) (apply_alpha_mode img 0)
          (fun u v => by rw [apply_alpha_a]; decide) _ a b)
        _ x y
    · intro t ht
      rw [effect_threshold_high] at ht
      rw [apply_animation_effects, if_neg (by decide), if_neg (by decide), if_pos rfl,
        if_neg (not_lt.mpr ht)]

/-- Witness for C4: the high tier on the 1×1 black canvas, with the
threshold clause instantiated at t = 3/10. -/
theorem c4_effect_boundary_witness :
    ("high" = "low" ∨ "high" = "medium" ∨ "high" = "high") ∧
    (∀ x y, ((apply_animation_effects demo_base 0 "high").px x y).a = 0) ∧
    apply_animation_effects demo_base (3/10) "high" = demo_base :=
  ⟨Or.inr (Or.inr rfl),
    (c4_effect_boundary demo_base "high" (Or.inr (Or.inr rfl))).1.2.2.2,
    (c4_effect_boundary demo_base "high" (Or.inr (Or.inr rfl))).2 (3/10)
      (by rw [effect_threshold_high])⟩

/-- Python round never exceeds an integer bound that the argument
satisfies. -/
theorem pyRound_le_intCast {x : ℚ} {n : ℤ} (h : x ≤ (n : ℚ)) : pyRound x ≤ n := by
  have hfl : ⌊x⌋ ≤ n := by
    have h2 := Int.floor_mono h
    rwa [Int.floor_intCast] at h2
  have hkey : ¬(x - ⌊x⌋ < 1/2) → ⌊x⌋ + 1 ≤ n := by
    intro h1
    push_neg at h1
    have h2 : (⌊x⌋ : ℚ) + 1/2 ≤ x := by linarith
    have h3 : (⌊x⌋ : ℚ) < (n : ℚ) := by linarith
    have h4 : ⌊x⌋ < n := by exact_mod_cast h3
    omega
  simp only [pyRound]
  by_cases h1 : x - ⌊x⌋ < 1/2
  · rw [if_pos h1]
    exact hfl
  · rw [if_neg h1]
    by_cases h2 : (1 : ℚ)/2 < x - ⌊x⌋
    · rw [if_pos h2]
      exact hkey h1
    · rw [if_neg h2]
      by_cases h3 : ⌊x⌋ % 2 = 0
      · rw [if_pos h3]
        exact hfl
      · rw [if_neg h3]
        exact hkey h1

/-- The scaled width never exceeds the target width. -/
theorem fit_nw_le (sw sh tw th : ℕ) (hsw : 0 < sw) (htw : 0 < tw) :
    fit_nw sw sh tw th ≤ tw := by
  have hsw' : (0 : ℚ) < sw := by exact_mod_cast hsw
  have hx : (sw : ℚ) * fit_scale sw sh tw th ≤ (tw : ℚ) := by
    have h1 : fit_scale sw sh tw th ≤ (tw : ℚ)/sw := min_le_left _ _
    have h2 : (sw : ℚ) * ((tw : ℚ)/(sw : ℚ)) = tw := by field_simp
    calc (sw : ℚ) * fit_scale sw sh tw th ≤ (sw : ℚ) * ((tw : ℚ)/sw) :=
          mul_le_mul_of_nonneg_left h1 (le_of_lt hsw')
      _ = tw := h2
  have hr : pyRound ((sw : ℚ) * fit_scale sw sh tw th) ≤ (tw : ℤ) := by
    apply pyRound_le_intCast
    exact_mod_cast hx
  unfold fit_nw
  omega

/-- The scaled height never exceeds the target height. -/
theorem fit_nh_le (sw sh tw th : ℕ) (hsh : 0 < sh) (hth : 0 < th) :
    fit_nh sw sh tw th ≤ th := by
  have hsh' : (0 : ℚ) < sh := by exact_mod_cast hsh
  have hx : (sh : ℚ) * fit_scale sw sh tw th ≤ (th : ℚ) := by
    have h1 : fit_scale sw sh tw th ≤ (th : ℚ)/sh := min_le_right _ _
    have h2 : (sh : ℚ) * ((th : ℚ)/(sh : ℚ)) = th := by field_simp
    calc (sh : ℚ) * fit_scale sw sh tw th ≤ (sh : ℚ) * ((th : ℚ)/sh) :=
          mul_le_mul_of_nonneg_left h1 (le_of_lt hsh')
      _ = th := h2
  have hr : pyRound ((sh : ℚ) * fit_scale sw sh tw th) ≤ (th : ℤ) := by
    apply pyRound_le_intCast
    exact_mod_cast hx
  unfold fit_nh
  omega

/-- The binding dimension of the uniform fit lands exactly on the target
edge. -/
theorem fit_touches (sw sh tw th : ℕ) (hsw : 0 < sw) (hsh : 0 < sh) (htw : 0 < tw)
    (hth : 0 < th) : fit_nw sw sh tw th = tw ∨ fit_nh sw sh tw th = th := by
  rcases le_total ((tw : ℚ)/sw) ((th : ℚ)/sh) with hle | hle
  · left
    have hsw' : ((sw : ℚ)) ≠ 0 := Nat.cast_ne_zero.mpr hsw.ne'
    unfold fit_nw fit_scale
    rw [min_eq_left hle, mul_comm, div_mul_cancel₀ _ hsw', pyRound_natCast]
    omega
  · right
    have hsh' : ((sh : ℚ)) ≠ 0 := Nat.cast_ne_zero.mpr hsh.ne'
    unfold fit_nh fit_scale
    rw [min_eq_right hle, mul_comm, div_mul_cancel₀ _ hsh', pyRound_natCast]
    omega

/-- Python `(tw - nw) // 2` at a nonnegative difference is natural
division. -/
theorem center_fdiv_eq (tw nw : ℕ) (h : nw ≤ tw) :
    ((tw : ℤ) - nw).fdiv 2 = ((tw - nw) / 2 : ℕ) := by
  rw [Int.fdiv_eq_ediv _ (by norm_num : (0 : ℤ) ≤ 2)]
  omega

/-- Reading a maskless paste inside the pasted region returns the source
pixel. -/
theorem paste_px_inside (dst src : Img) (cx cy : ℕ) (dx dy : ℕ)
    (hdx : dx < src.width) (hdy : dy < src.height) :
    (dst.paste src (cx : ℤ) (cy : ℤ) false).px (cx + dx) (cy + dy) = src.px dx dy := by
  simp only [Img.paste]
  rw [if_pos (by push_cast; omega :
    (0 : ℤ) ≤ ((cx + dx : ℕ) : ℤ) - cx ∧ ((cx + dx : ℕ) : ℤ) - cx < (src.width : ℤ) ∧
      (0 : ℤ) ≤ ((cy + dy : ℕ) : ℤ) - cy ∧ ((cy + dy : ℕ) : ℤ) - cy < (src.height : ℤ))]
  rw [if_neg (by simp : ¬(false = true))]
  congr 1
  · omega
  · omega

/-- Reading a paste outside the pasted region returns the destination
pixel. -/
theorem paste_px_outside (dst src : Img) (ox oy : ℤ) (useMask : Bool) (x y : ℕ)
    (hout : ¬(0 ≤ (x : ℤ) - ox ∧ (x : ℤ) - ox < (src.width : ℤ) ∧
      0 ≤ (y : ℤ) - oy ∧ (y : ℤ) - oy < (src.height : ℤ))) :
    (dst.paste src ox oy useMask).px x y = dst.px x y := by
  simp only [Img.paste]
  rw [if_neg hout]

/-- C5.  For every source image with positive dimensions and every positive
target size, `_resize_image_to_fit` succeeds, scales uniformly by
`fit_scale` (the minimum of the two axis ratios), returns an opaque RGB
canvas of exactly the target size whose binding scaled dimension exactly
touches one target edge, and (for an RGB source) shows the scaled image's
pixels centred on the canvas with white letterbox bars outside. -/
theorem c5_letterbox_geometry (img : Img) (tw th : ℕ) (hsw : 0 < img.width)
    (hsh : 0 < img.height) (htw : 0 < tw) (hth : 0 < th) :
    ∃ result, resize_image_to_fit img (tw, th) = some result ∧
      result.width = tw ∧ result.height = th ∧ result.mode = Mode.rgb ∧
      (fit_nw img.width img.height tw th = tw ∨ fit_nh img.width img.height tw th = th) ∧
      (img.mode = Mode.rgb →
        (∀ dx, dx < fit_nw img.width img.height tw th →
          ∀ dy, dy < fit_nh img.width img.height tw th →
          result.px ((tw - fit_nw img.width img.height tw th) / 2 + dx)
              ((th - fit_nh img.width img.height tw th) / 2 + dy)
            = (img.resize (fit_nw img.width img.height tw th)
                (fit_nh img.width img.height tw th)).px dx dy) ∧
        (∀ x y,
          (x < (tw - fit_nw img.width img.height tw th) / 2 ∨
            (tw - fit_nw img.width img.height tw th) / 2
              + fit_nw img.width img.height tw th ≤ x ∨
            y < (th - fit_nh img.width img.height tw th) / 2 ∨
            (th - fit_nh img.width img.height tw th) / 2
              + fit_nh img.width img.height tw th ≤ y) →
          result.px x y = ⟨255, 255, 255, 255⟩)) := by
  set nw := fit_nw img.width img.height tw th with hnwdef
  set nh := fit_nh img.width img.height tw th with hnhdef
  have hnwle : nw ≤ tw := fit_nw_le img.width img.height tw th hsw htw
  have hnhle : nh ≤ th := fit_nh_le img.width img.height tw th hsh hth
  have hcond : ¬(img.width = 0 ∨ img.height = 0 ∨ tw = 0 ∨ th = 0) := by omega
  have hmain : resize_image_to_fit img (tw, th)
      = some ((Img.new Mode.rgb tw th ⟨255, 255, 255, 255⟩).paste
          (if nw = img.width ∧ nh = img.height then img else img.resize nw nh)
          (((tw : ℤ) - nw).fdiv 2) (((th : ℤ) - nh).fdiv 2)
          (if nw = img.width ∧ nh = img.height then img
            else img.resize nw nh).mode.isRGBA) := by
    simp only [resize_image_to_fit]
    rw [if_neg hcond]
  have hRw : (if nw = img.width ∧ nh = img.height then img
      else img.resize nw nh).width = nw := by
    by_cases hc : nw = img.width ∧ nh = img.height
    · rw [if_pos hc]
      exact hc.1.symm
    · rw [if_neg hc]
      rfl
  have hRh : (if nw = img.width ∧ nh = img.height then img
      else img.resize nw nh).height = nh := by
    by_cases hc : nw = img.width ∧ nh = img.height
    · rw [if_pos hc]
      exact hc.2.symm
    · rw [if_neg hc]
      rfl
  have hRm : (if nw = img.width ∧ nh = img.height then img
      else img.resize nw nh).mode = img.mode := by
    by_cases hc : nw = img.width ∧ nh = img.height
    · rw [if_pos hc]
    · rw [if_neg hc]
      rfl
  have hpx : ∀ a b, (if nw = img.width ∧ nh = img.height then img
      else img.resize nw nh).px a b = (img.resize nw nh).px a b := by
    intro a b
    by_cases hc : nw = img.width ∧ nh = img.height
    · rw [if_pos hc]
      show img.px a b = img.px (a * img.width / nw) (b * img.height / nh)
      rw [hc.1, hc.2, Nat.mul_div_cancel _ hsw, Nat.mul_div_cancel _ hsh]
    · rw [if_neg hc]
  refine ⟨_, hmain, rfl, rfl, rfl,
    fit_touches img.width img.height tw th hsw hsh htw hth, ?_⟩
  intro hmode
  have hmask : (if nw = img.width ∧ nh = img.height then img
      else img.resize nw nh).mode.isRGBA = false := by
    rw [hRm, hmode]
    rfl
  constructor
  · intro dx hdx dy hdy
    rw [center_fdiv_eq tw nw hnwle, center_fdiv_eq th nh hnhle, hmask]
    have hin := paste_px_inside (Img.new Mode.rgb tw th ⟨255, 255, 255, 255⟩)
      (if nw = img.width ∧ nh = img.height then img else img.resize nw nh)
      ((tw - nw) / 2) ((th - nh) / 2) dx dy
      (by rw [hRw]; exact hdx) (by rw [hRh]; exact hdy)
    exact hin.trans (hpx dx dy)
  · intro x y hxy
    rw [center_fdiv_eq tw nw hnwle, center_fdiv_eq th nh hnhle]
    have hout : ¬(0 ≤ (x : ℤ) - (((tw - nw) / 2 : ℕ) : ℤ) ∧
        (x : ℤ) - (((tw - nw) / 2 : ℕ) : ℤ)
          < ((if nw = img.width ∧ nh = img.height then img
              else img.resize nw nh).width : ℤ) ∧
        0 ≤ (y : ℤ) - (((th - nh) / 2 : ℕ) : ℤ) ∧
        (y : ℤ) - (((th - nh) / 2 : ℕ) : ℤ)
          < ((if nw = img.width ∧ nh = img.height then img
              else img.resize nw nh).height : ℤ)) := by
      rw [hRw, hRh]
      omega
    rw [paste_px_outside _ _ _ _ _ x y hout]
    rfl

/-- Witness for C5: the 4×2 source letterboxed into an 8×8 target. -/
theorem c5_letterbox_geometry_witness :
    0 < demo_src.width ∧ 0 < demo_src.height ∧ 0 < 8 ∧ 0 < 8 ∧
    (∃ result, resize_image_to_fit demo_src (8, 8) = some result ∧
      result.width = 8 ∧ result.height = 8 ∧ result.mode = Mode.rgb ∧
      (fit_nw demo_src.width demo_src.height 8 8 = 8 ∨
        fit_nh demo_src.width demo_src.height 8 8 = 8) ∧
      (demo_src.mode = Mode.rgb →
        (∀ dx, dx < fit_nw demo_src.width demo_src.height 8 8 →
          ∀ dy, dy < fit_nh demo_src.width demo_src.height 8 8 →
          result.px ((8 - fit_nw demo_src.width demo_src.height 8 8) / 2 + dx)
              ((8 - fit_nh demo_src.width demo_src.height 8 8) / 2 + dy)
            = (demo_src.resize (fit_nw demo_src.width demo_src.height 8 8)
                (fit_nh demo_src.width demo_src.height 8 8)).px dx dy) ∧
        (∀ x y,
          (x < (8 - fit_nw demo_src.width demo_src.height 8 8) / 2 ∨
            (8 - fit_nw demo_src.width demo_src.height 8 8) / 2
              + fit_nw demo_src.width demo_src.height 8 8 ≤ x ∨
            y < (8 - fit_nh demo_src.width demo_src.height 8 8) / 2 ∨
            (8 - fit_nh demo_src.width demo_src.height 8 8) / 2
              + fit_nh demo_src.width demo_src.height 8 8 ≤ y) →
          result.px x y = ⟨255, 255, 255, 255⟩))) :=
  ⟨by decide, by decide, by decide, by decide,
    c5_letterbox_geometry demo_src 8 8 (by decide) (by decide) (by decide) (by decide)⟩

/-- Reading below the old length is unaffected by appending. -/
theorem heap_read_append_lt (h l : List Img) (r : ℕ) (hr : r < h.length) :
    heap_read (h ++ l) r = heap_read h r := by
  unfold heap_read
  rw [List.getD_append _ _ _ _ hr]

/-- Reading the freshly appended cell. -/
theorem heap_read_append_self (h : List Img) (x : Img) :
    heap_read (h ++ [x]) h.length = x := by
  unfold heap_read
  rw [List.getD_append_right _ _ _ _ (le_refl _)]
  simp

/-- Writing one cell leaves the others unchanged. -/
theorem heap_read_set_ne (h : List Img) (i r : ℕ) (x : Img) (hne : i ≠ r) :
    heap_read (h.set i x) r = heap_read h r := by
  unfold heap_read
  simp [List.getD_eq_getElem?_getD, List.getElem?_set_ne hne]

/-- Elimination for an association-list lookup on a cons cell. -/
theorem lookup_cons_elim {α β : Type} [BEq α] [LawfulBEq α] {k k2 : α} {v q : β}
    {l : List (α × β)} (h : ((k2, v) :: l).lookup k = some q) :
    (k = k2 ∧ q = v) ∨ ((k == k2) = false ∧ l.lookup k = some q) := by
  by_cases hb : (k == k2) = true
  · left
    simp only [List.lookup, hb] at h
    exact ⟨eq_of_beq hb, (Option.some.inj h).symm⟩
  · right
    simp only [List.lookup] at h
    rw [Bool.eq_false_iff.mpr hb] at h
    exact ⟨Bool.eq_false_iff.mpr hb, h⟩

/-- What a successful `_load_image` guarantees. -/
theorem load_image_spec (disk : String → Option Img) (st : CacheState) (path : String)
    (rs : ℕ) (st1 : CacheState) (hInv : CacheInv disk st)
    (h : load_image disk st path = some (rs, st1)) :
    st1.fitted = st.fitted ∧
    st.heap.length ≤ st1.heap.length ∧
    CacheInv disk st1 ∧
    rs < st1.heap.length ∧
    disk path = some (heap_read st1.heap rs) := by
  unfold load_image at h
  cases hl : st.loaded.lookup path with
  | some r =>
    rw [hl] at h
    simp only [Option.some.injEq, Prod.mk.injEq] at h
    obtain ⟨rfl, rfl⟩ := h
    obtain ⟨hlt, hdisk⟩ := hInv.1 path r hl
    exact ⟨rfl, le_refl _, hInv, hlt, hdisk⟩
  | none =>
    rw [hl] at h
    cases hd : disk path with
    | none =>
      rw [hd] at h
      simp at h
    | some img =>
      rw [hd] at h
      simp only [Option.some.injEq, Prod.mk.injEq] at h
      obtain ⟨rfl, rfl⟩ := h
      refine ⟨rfl, by simp, ⟨?_, ?_⟩, by simp, ?_⟩
      · intro p q hpq
        rcases lookup_cons_elim hpq with ⟨rfl, rfl⟩ | ⟨_, htail⟩
        · refine ⟨by simp, ?_⟩
          rw [heap_read_append_self]
          exact hd
        · obtain ⟨hlt, hdiskp⟩ := hInv.1 p q htail
          refine ⟨hlt.trans_le (by simp), ?_⟩
          rw [heap_read_append_lt _ _ _ hlt]
          exact hdiskp
      · intro k q hkq
        obtain ⟨hlt, hval⟩ := hInv.2 k q hkq
        refine ⟨hlt.trans_le (by simp), ?_⟩
        rw [heap_read_append_lt _ _ _ hlt]
        exact hval
      · rw [heap_read_append_self]

/-- What a successful `_get_fitted_canvas` guarantees: the invariant is
preserved, the returned reference holds exactly the from-scratch letterboxed
canvas, the key is now cached, and the returned reference is fresh (no cache
entry aliases it). -/
theorem get_fitted_canvas_spec (disk : String → Option Img) (st : CacheState) (path : String)
    (tw th : ℕ) (r' : ℕ) (st' : CacheState) (hInv : CacheInv disk st)
    (h : get_fitted_canvas disk st path (tw, th) = some (r', st')) :
    CacheInv disk st' ∧
    fitted_pure disk path (tw, th) = some (heap_read st'.heap r') ∧
    (∃ rf, st'.fitted.lookup (path, tw, th) = some rf) ∧
    (∀ k q, st'.fitted.lookup k = some q → q ≠ r') := by
  unfold get_fitted_canvas at h
  cases hk : st.fitted.lookup (path, tw, th) with
  | some r =>
    rw [hk] at h
    simp only [Option.some.injEq, Prod.mk.injEq] at h
    obtain ⟨rfl, rfl⟩ := h
    obtain ⟨hrlt, hrval⟩ := hInv.2 _ _ hk
    refine ⟨⟨?_, ?_⟩, ?_, ⟨r, hk⟩, ?_⟩
    · intro p q hpq
      obtain ⟨hlt, hdisk⟩ := hInv.1 p q hpq
      refine ⟨hlt.trans_le (by simp), ?_⟩
      rw [heap_read_append_lt _ _ _ hlt]
      exact hdisk
    · intro k q hkq
      obtain ⟨hlt, hval⟩ := hInv.2 k q hkq
      refine ⟨hlt.trans_le (by simp), ?_⟩
      rw [heap_read_append_lt _ _ _ hlt]
      exact hval
    · rw [heap_read_append_self]
      exact hrval
    · intro k q hkq
      have := (hInv.2 k q hkq).1
      omega
  | none =>
    simp only [hk] at h
    cases hload : load_image disk st path with
    | none =>
      simp only [hload] at h
      exact Option.noConfusion h
    | some rs_st1 =>
      obtain ⟨rs, st1⟩ := rs_st1
      simp only [hload] at h
      obtain ⟨hft, hlen, hInv1, hrs, hdisk⟩ := load_image_spec disk st path rs st1 hInv hload
      cases hfit : resize_image_to_fit (heap_read st1.heap rs) (tw, th) with
      | none =>
        simp only [hfit] at h
        exact Option.noConfusion h
      | some fitted =>
        simp only [hfit] at h
        simp only [Option.some.injEq, Prod.mk.injEq] at h
        obtain ⟨rfl, rfl⟩ := h
        have hpure : fitted_pure disk path (tw, th) = some fitted := by
          unfold fitted_pure
          rw [hdisk]
          exact hfit
        refine ⟨⟨?_, ?_⟩, ?_, ⟨st1.heap.length, ?_⟩, ?_⟩
        · intro p q hpq
          obtain ⟨hlt, hdiskp⟩ := hInv1.1 p q hpq
          refine ⟨by simp only [List.length_append, List.length_cons, List.length_nil]; omega, ?_⟩
          rw [heap_read_append_lt _ _ _ (by simp only [List.length_append, List.length_cons, List.length_nil]; omega),
            heap_read_append_lt _ _ _ hlt]
          exact hdiskp
        · intro k q hkq
          rcases lookup_cons_elim hkq with ⟨rfl, rfl⟩ | ⟨_, htail⟩
          · refine ⟨by simp only [List.length_append, List.length_cons, List.length_nil]; omega, ?_⟩
            rw [heap_read_append_lt _ _ _ (by simp only [List.length_append, List.length_cons, List.length_nil]; omega),
              heap_read_append_self]
            exact hpure
          · obtain ⟨hlt, hval⟩ := hInv1.2 k q htail
            refine ⟨by simp only [List.length_append, List.length_cons, List.length_nil]; omega, ?_⟩
            rw [heap_read_append_lt _ _ _ (by simp only [List.length_append, List.length_cons, List.length_nil]; omega),
              heap_read_append_lt _ _ _ hlt]
            exact hval
        · rw [show st1.heap.length + 1 = (st1.heap ++ [fitted]).length by simp,
            heap_read_append_self]
          exact hpure
        · simp [List.lookup]
        · intro k q hkq
          rcases lookup_cons_elim hkq with ⟨_, rfl⟩ | ⟨_, htail⟩
          · omega
          · have := (hInv1.2 k q htail).1
            omega

/-- A cache hit returns a fresh copy of the cached canvas and leaves the
caches untouched. -/
theorem get_fitted_canvas_hit (disk : String → Option Img) (st : CacheState) (path : String)
    (tw th : ℕ) (r : ℕ) (hk : st.fitted.lookup (path, tw, th) = some r) :
    get_fitted_canvas disk st path (tw, th)
      = some (st.heap.length, ⟨st.heap ++ [heap_read st.heap r], st.loaded, st.fitted⟩) := by
  unfold get_fitted_canvas
  rw [hk]

/-- C6.  From any state satisfying the cache invariant, two successive
`_get_fitted_canvas` calls with the same `(path, target_size)` return
pixel-identical canvases, and overwriting the image returned by the first
call (mutation of the returned copy) does not change what a subsequent call
returns: the cached original is never exposed. -/
theorem c6_fitted_canvas_cache (disk : String → Option Img) (st : CacheState) (path : String)
    (tw th : ℕ) (hInv : CacheInv disk st)
    (hsome : (get_fitted_canvas disk st path (tw, th)).isSome = true) :
    ∃ r1 s1 r2 s2, get_fitted_canvas disk st path (tw, th) = some (r1, s1) ∧
      get_fitted_canvas disk s1 path (tw, th) = some (r2, s2) ∧
      heap_read s2.heap r2 = heap_read s1.heap r1 ∧
      ∀ junk : Img, ∃ r3 s3,
        get_fitted_canvas disk ⟨s1.heap.set r1 junk, s1.loaded, s1.fitted⟩ path (tw, th)
          = some (r3, s3) ∧
        heap_read s3.heap r3 = heap_read s1.heap r1 := by
  cases hres : get_fitted_canvas disk st path (tw, th) with
  | none =>
    rw [hres] at hsome
    simp at hsome
  | some rs1 =>
    obtain ⟨r1, s1⟩ := rs1
    obtain ⟨hInv1, hval1, ⟨rf, hrf⟩, hfresh⟩ :=
      get_fitted_canvas_spec disk st path tw th r1 s1 hInv hres
    have hhit := get_fitted_canvas_hit disk s1 path tw th rf hrf
    obtain ⟨hrflt, hrfval⟩ := hInv1.2 _ _ hrf
    have hr1val : heap_read s1.heap rf = heap_read s1.heap r1 :=
      Option.some.inj (hrfval.symm.trans hval1)
    refine ⟨r1, s1, s1.heap.length, _, rfl, hhit, ?_, ?_⟩
    · rw [heap_read_append_self]
      exact hr1val
    · intro junk
      have hrfne : rf ≠ r1 := hfresh _ _ hrf
      have hhit2 := get_fitted_canvas_hit disk ⟨s1.heap.set r1 junk, s1.loaded, s1.fitted⟩
        path tw th rf hrf
      refine ⟨_, _, hhit2, ?_⟩
      rw [heap_read_append_self, heap_read_set_ne _ _ _ _ (Ne.symm hrfne)]
      exact hr1val

/-- Witness for C6: two calls (with a mutation in between) on the one-file
disk from the empty cache state. -/
theorem c6_fitted_canvas_cache_witness :
    CacheInv demo_cache_disk empty_cache ∧
    (get_fitted_canvas demo_cache_disk empty_cache "a.png" (2, 2)).isSome = true ∧
    (∃ r1 s1 r2 s2,
      get_fitted_canvas demo_cache_disk empty_cache "a.png" (2, 2) = some (r1, s1) ∧
      get_fitted_canvas demo_cache_disk s1 "a.png" (2, 2) = some (r2, s2) ∧
      heap_read s2.heap r2 = heap_read s1.heap r1 ∧
      ∀ junk : Img, ∃ r3 s3,
        get_fitted_canvas demo_cache_disk ⟨s1.heap.set r1 junk, s1.loaded, s1.fitted⟩
            "a.png" (2, 2) = some (r3, s3) ∧
        heap_read s3.heap r3 = heap_read s1.heap r1) :=
  ⟨⟨fun p r h => by simp [List.lookup] at h, fun k r h => by simp [List.lookup] at h⟩,
    rfl,
    c6_fitted_canvas_cache demo_cache_disk empty_cache "a.png" 2 2
      ⟨fun p r h => by simp [List.lookup] at h, fun k r h => by simp [List.lookup] at h⟩
      rfl⟩
